import Mathlib

/-!
Verification of the athas agent-settings core
(src/src-tauri/src/commands/ai/agent_settings.rs).

The Rust module manipulates `serde_json::Value` trees: dot-path get/set
helpers (`get_nested_value`, `set_nested_value`), a TOML/JSON format bridge
(`toml_to_json`, `json_to_toml`) and two thin file-facade commands
(`get_agent_settings`, `set_agent_settings`).

Embedding choices:
  * `serde_json::Value` becomes the inductive `Value`; JSON numbers are
    embedded as the i64-representable integers (the `num` constructor carries
    an `Int`).  Floating-point numbers are outside this embedding; none of
    the verified claims touches them.
  * `serde_json::Map` becomes an association list `List (String × Value)`;
    `insert` replaces the first binding of the key in place (appending when
    absent) and lookups take the first binding, matching the observable
    map behaviour used by the source.
  * `toml::Value` becomes `TomlValue`; datetimes are carried as their
    canonical textual rendering (the source only ever converts them with
    `dt.to_string()`).
  * Rust's `key.split('.')` is embedded as `splitDot` over the character
    list of the key: it splits at every occurrence of the dot and keeps
    empty segments, so the empty string splits to `[""]`, exactly as in Rust.
  * The file facades are embedded after home-directory resolution, with the
    file system abstracted to inputs and outputs: `fileContents : Option
    String` is the existing file (`none` when absent, reading assumed to
    succeed), the library parsers and serializers are parameters of type
    `String → Except String _` and `_ → Except String String`, and a
    successful write returns the serialized contents that are written.
-/

namespace Athas

/-- The in-memory value model: `serde_json::Value` with numbers restricted
to the i64-representable integers (floats are outside the embedding). -/
inductive Value where
  | null : Value
  | bool : Bool → Value
  | num : Int → Value
  | str : String → Value
  | arr : List Value → Value
  | obj : List (String × Value) → Value
deriving Repr

/-- The TOML value model: `toml::Value` with floats outside the embedding
and datetimes carried as their textual rendering. -/
inductive TomlValue where
  | str : String → TomlValue
  | int : Int → TomlValue
  | bool : Bool → TomlValue
  | datetime : String → TomlValue
  | arr : List TomlValue → TomlValue
  | table : List (String × TomlValue) → TomlValue
deriving Repr

/-- First-binding lookup in an association list (`Map::get`). -/
def lookupKV (es : List (String × Value)) (k : String) : Option Value :=
  match es with
  | [] => none
  | (k', v) :: rest => if k' = k then some v else lookupKV rest k

/-- `Map::insert`: replace the first binding of `k` in place, or append a
new binding when `k` is absent. -/
def insertKV (es : List (String × Value)) (k : String) (x : Value) :
    List (String × Value) :=
  match es with
  | [] => [(k, x)]
  | (k', v) :: rest =>
    if k' = k then (k', x) :: rest else (k', v) :: insertKV rest k x

/-- The entries of an Object, and `[]` for every other variant (used where
the source coerces a non-object to a fresh empty object). -/
def Value.entriesOf : Value → List (String × Value)
  | .obj es => es
  | _ => []

/-- `Value::get(&str)`: key lookup on Objects, `None` on every other
variant (arrays are never indexed by a string key). -/
def Value.getKey : Value → String → Option Value
  | .obj es, k => lookupKV es k
  | _, _ => none

/-- `Value::is_object()`. -/
def Value.is_object : Value → Bool
  | .obj _ => true
  | _ => false

/-- `Value::as_str()`: `Some` exactly on the String variant. -/
def Value.as_str : Value → Option String
  | .str s => some s
  | _ => none

/-- `Value::as_bool()`: `Some` exactly on the Bool variant. -/
def Value.as_bool : Value → Option Bool
  | .bool b => some b
  | _ => none

/-- Rust `str::split('.')` on a character list: split at every dot, keeping
empty segments; the empty input yields one empty segment. -/
def splitDotChars : List Char → List (List Char)
  | [] => [[]]
  | c :: cs =>
    if c = '.' then [] :: splitDotChars cs
    else
      match splitDotChars cs with
      | [] => [[c]]
      | s :: ss => (c :: s) :: ss

/-- `key.split('.').collect::<Vec<_>>()` on a Lean string. -/
def splitDot (s : String) : List String :=
  (splitDotChars s.data).map (fun l => String.mk l)

/-- `get_nested_value`, after the key has been split into parts: descend
through `Value::get`, failing as soon as any step fails. -/
def getNestedParts : Value → List String → Option Value
  | v, [] => some v
  | v, part :: rest =>
    match v.getKey part with
    | none => none
    | some c => getNestedParts c rest

/-- `get_nested_value(json, key)`: split on dots, then descend. -/
def get_nested_value (json : Value) (key : String) : Option Value :=
  getNestedParts json (splitDot key)

/-- `set_nested_value`, after the key has been split into parts.  The empty
parts list returns the tree unchanged (the source's dead
`parts.is_empty()` guard).  On the last part, the current node is coerced
to an Object if needed and the value is inserted.  On an intermediate part,
the current node is coerced to an Object if needed, a fresh empty Object is
inserted when the key is absent, and the walk descends into the child. -/
def setNestedParts : Value → List String → Value → Value
  | v, [], _ => v
  | v, part :: rest, x =>
    match rest with
    | [] => Value.obj (insertKV v.entriesOf part x)
    | _ :: _ =>
      let child := (lookupKV v.entriesOf part).getD (Value.obj [])
      Value.obj (insertKV v.entriesOf part (setNestedParts child rest x))

/-- `set_nested_value(json, key, value)`: split on dots, then walk and
insert, creating (or destructively coercing to) objects as needed. -/
def set_nested_value (json : Value) (key : String) (value : Value) : Value :=
  setNestedParts json (splitDot key) value

mutual

/-- `toml_to_json`: recursive conversion of a TOML value to the common
value model (datetimes were already rendered to text). -/
def toml_to_json : TomlValue → Value
  | .str s => .str s
  | .int i => .num i
  | .bool b => .bool b
  | .datetime dt => .str dt
  | .arr l => .arr (toml_to_json_list l)
  | .table t => .obj (toml_to_json_table t)

/-- Element-wise `toml_to_json` on a TOML array (`arr.into_iter().map`). -/
def toml_to_json_list : List TomlValue → List Value
  | [] => []
  | v :: rest => toml_to_json v :: toml_to_json_list rest

/-- Entry-wise `toml_to_json` on a TOML table (`table.into_iter().map`). -/
def toml_to_json_table : List (String × TomlValue) → List (String × Value)
  | [] => []
  | (k, v) :: rest => (k, toml_to_json v) :: toml_to_json_table rest

end

mutual

/-- `json_to_toml`: recursive conversion back to TOML; `Null` degrades to
the empty string because TOML has no null primitive, and integers map to
TOML integers (the float branches are outside the integer-only number
embedding). -/
def json_to_toml : Value → TomlValue
  | .null => .str ""
  | .bool b => .bool b
  | .num i => .int i
  | .str s => .str s
  | .arr l => .arr (json_to_toml_list l)
  | .obj es => .table (json_to_toml_table es)

/-- Element-wise `json_to_toml` on a JSON array. -/
def json_to_toml_list : List Value → List TomlValue
  | [] => []
  | v :: rest => json_to_toml v :: json_to_toml_list rest

/-- Entry-wise `json_to_toml` on a JSON object. -/
def json_to_toml_table : List (String × Value) → List (String × TomlValue)
  | [] => []
  | (k, v) :: rest => (k, json_to_toml v) :: json_to_toml_table rest

end

/-- The fixed-shape result of the read command (`AgentSettings`). -/
structure AgentSettings where
  model : Option String
  preview_enabled : Option Bool
  reasoning_effort : Option String
deriving Repr, DecidableEq

/-- `get_agent_settings`, embedded after home-directory resolution.
`fileContents` is the settings file (`none` when it does not exist);
`parseToml` and `parseJson` abstract the library parsers.  A missing file
returns the all-absent result; a parse failure surfaces an error naming
the format; otherwise each field is extracted through `get_nested_value`
and the matching primitive accessor. -/
def get_agent_settings (fileContents : Option String) (isToml : Bool)
    (parseToml : String → Except String TomlValue)
    (parseJson : String → Except String Value)
    (model_key : String) (preview_key reasoning_key : Option String) :
    Except String AgentSettings :=
  match fileContents with
  | none => .ok ⟨none, none, none⟩
  | some content =>
    let parsed : Except String Value :=
      if isToml then
        match parseToml content with
        | .error e => .error ("Failed to parse TOML: " ++ e)
        | .ok t => .ok (toml_to_json t)
      else
        match parseJson content with
        | .error e => .error ("Failed to parse JSON: " ++ e)
        | .ok j => .ok j
    match parsed with
    | .error e => .error e
    | .ok json =>
      .ok
        { model := (get_nested_value json model_key).bind Value.as_str
          preview_enabled :=
            preview_key.bind (fun k => (get_nested_value json k).bind Value.as_bool)
          reasoning_effort :=
            reasoning_key.bind (fun k => (get_nested_value json k).bind Value.as_str) }

/-- The document loaded by the write command: the parsed existing file,
with a parse failure silently downgraded to an empty document
(`unwrap_or`), and an empty Object when the file does not exist. -/
def loadWriteBase (fileContents : Option String) (isToml : Bool)
    (parseToml : String → Except String TomlValue)
    (parseJson : String → Except String Value) : Value :=
  match fileContents with
  | none => .obj []
  | some content =>
    if isToml then toml_to_json ((parseToml content).toOption.getD (.table []))
    else (parseJson content).toOption.getD (.obj [])

/-- The three conditional `set_nested_value` updates of the write command,
applied in source order: model, then preview, then reasoning effort. -/
def applyUpdates (base : Value) (model_key : String)
    (preview_key reasoning_key : Option String)
    (model : Option String) (preview_enabled : Option Bool)
    (reasoning_effort : Option String) : Value :=
  let j1 := match model with
    | some m => set_nested_value base model_key (.str m)
    | none => base
  let j2 := match preview_key, preview_enabled with
    | some k, some p => set_nested_value j1 k (.bool p)
    | _, _ => j1
  match reasoning_key, reasoning_effort with
  | some k, some r => set_nested_value j2 k (.str r)
  | _, _ => j2

/-- `set_agent_settings`, embedded after home-directory resolution and
directory creation.  `serializeToml` and `serializeJson` abstract the
library serializers; `.ok s` means the string `s` is written over the
file, `.error e` means the command fails before writing anything. -/
def set_agent_settings (fileContents : Option String) (isToml : Bool)
    (parseToml : String → Except String TomlValue)
    (parseJson : String → Except String Value)
    (serializeToml : TomlValue → Except String String)
    (serializeJson : Value → Except String String)
    (model_key : String) (preview_key reasoning_key : Option String)
    (model : Option String) (preview_enabled : Option Bool)
    (reasoning_effort : Option String) : Except String String :=
  let base := loadWriteBase fileContents isToml parseToml parseJson
  let json := applyUpdates base model_key preview_key reasoning_key
    model preview_enabled reasoning_effort
  if isToml then
    match serializeToml (json_to_toml json) with
    | .error e => .error ("Failed to serialize TOML: " ++ e)
    | .ok s => .ok s
  else
    match serializeJson json with
    | .error e => .error ("Failed to serialize JSON: " ++ e)
    | .ok s => .ok s

/-! ### Helper lemmas about the association-list map and the split -/

theorem getKey_eq_lookup (v : Value) (k : String) :
    v.getKey k = lookupKV v.entriesOf k := by
  cases v <;> rfl

theorem lookupKV_insertKV_self (es : List (String × Value)) (k : String)
    (x : Value) : lookupKV (insertKV es k x) k = some x := by
  induction es with
  | nil => simp [insertKV, lookupKV]
  | cons hd tl ih =>
    obtain ⟨a, w⟩ := hd
    by_cases h : a = k
    · simp [insertKV, lookupKV, h]
    · simp [insertKV, lookupKV, h, ih]

theorem lookupKV_insertKV_ne {k' k : String} (h : k' ≠ k)
    (es : List (String × Value)) (x : Value) :
    lookupKV (insertKV es k x) k' = lookupKV es k' := by
  have h2 : k ≠ k' := Ne.symm h
  induction es with
  | nil => simp [insertKV, lookupKV, h2]
  | cons hd tl ih =>
    obtain ⟨a, w⟩ := hd
    by_cases ha : a = k
    · subst ha
      simp [insertKV, lookupKV, h2]
    · simp [insertKV, lookupKV, ha, ih]

theorem splitDotChars_ne_nil (cs : List Char) : splitDotChars cs ≠ [] := by
  cases cs with
  | nil => simp [splitDotChars]
  | cons c cs =>
    simp only [splitDotChars]
    split
    · simp
    · split <;> simp

theorem splitDot_ne_nil (s : String) : splitDot s ≠ [] := by
  unfold splitDot
  cases h : splitDotChars s.data with
  | nil => exact absurd h (splitDotChars_ne_nil _)
  | cons a l => simp

/-! ### Helper lemmas about the nested get/set walks -/

theorem setNestedParts_eq_obj (v x : Value) (parts : List String)
    (h : parts ≠ []) : ∃ es, setNestedParts v parts x = Value.obj es := by
  cases parts with
  | nil => exact absurd rfl h
  | cons s rest =>
    cases rest with
    | nil => exact ⟨_, rfl⟩
    | cons r t => exact ⟨_, rfl⟩

theorem getNestedParts_setNestedParts (v x : Value) (parts : List String)
    (h : parts ≠ []) :
    getNestedParts (setNestedParts v parts x) parts = some x := by
  induction parts generalizing v with
  | nil => exact absurd rfl h
  | cons s rest ih =>
    cases rest with
    | nil =>
      simp [setNestedParts, getNestedParts, Value.getKey, lookupKV_insertKV_self]
    | cons r t =>
      simp only [setNestedParts, getNestedParts, Value.getKey,
        lookupKV_insertKV_self]
      exact ih _ (by simp)

theorem getNestedParts_append (v : Value) (q r : List String) :
    getNestedParts v (q ++ r)
      = (getNestedParts v q).bind (fun u => getNestedParts u r) := by
  induction q generalizing v with
  | nil => simp [getNestedParts]
  | cons s q ih =>
    cases h : v.getKey s with
    | none => simp [getNestedParts, h]
    | some c => simp [getNestedParts, h, ih]

theorem getNestedParts_cons (v : Value) (s : String) (rest : List String) :
    getNestedParts v (s :: rest)
      = match v.getKey s with
        | none => none
        | some c => getNestedParts c rest := rfl

theorem getKey_setNestedParts_ne (v x : Value) (s : String)
    (rest : List String) (k : String) (hk : k ≠ s) :
    (setNestedParts v (s :: rest) x).getKey k = v.getKey k := by
  rw [getKey_eq_lookup v k]
  cases rest with
  | nil => simp [setNestedParts, Value.getKey, lookupKV_insertKV_ne hk]
  | cons r t => simp [setNestedParts, Value.getKey, lookupKV_insertKV_ne hk]

theorem getKey_setNestedParts_descend (v x : Value) (s r : String)
    (t : List String) :
    (setNestedParts v (s :: r :: t) x).getKey s
      = some (setNestedParts ((v.getKey s).getD (Value.obj [])) (r :: t) x) := by
  rw [getKey_eq_lookup v s]
  simp [setNestedParts, Value.getKey, lookupKV_insertKV_self]

theorem getNestedParts_setNestedParts_prefix (v x : Value)
    (pre suf : List String) (hpre : pre ≠ []) (hsuf : suf ≠ []) :
    ∃ es, getNestedParts (setNestedParts v (pre ++ suf) x) pre
      = some (Value.obj es) := by
  induction pre generalizing v with
  | nil => exact absurd rfl hpre
  | cons s pre ih =>
    cases pre with
    | nil =>
      cases suf with
      | nil => exact absurd rfl hsuf
      | cons r t =>
        obtain ⟨es2, hR⟩ := setNestedParts_eq_obj
          ((Value.getKey v s).getD (Value.obj [])) x (r :: t) (by simp)
        refine ⟨es2, ?_⟩
        have hkey := getKey_setNestedParts_descend v x s r t
        simp only [List.cons_append, List.nil_append]
        rw [getNestedParts_cons, hkey]
        exact congrArg some hR
    | cons s2 pre' =>
      obtain ⟨es2, h2⟩ := ih ((Value.getKey v s).getD (Value.obj []))
        (by simp)
      refine ⟨es2, ?_⟩
      have hkey := getKey_setNestedParts_descend v x s s2 (pre' ++ suf)
      simp only [List.cons_append]
      rw [getNestedParts_cons, hkey]
      exact h2

/-! ### Claim theorems -/

/-- C1: for every Value tree `v`, every dot-path string `p` and every Value
`x`, reading back immediately after writing succeeds with the written
value: `get_nested_value (set_nested_value v p x) p = some x`, even when no
node at `p` existed in `v` beforehand. -/
theorem get_set_roundtrip (v x : Value) (p : String) :
    get_nested_value (set_nested_value v p x) p = some x := by
  unfold get_nested_value set_nested_value
  exact getNestedParts_setNestedParts v x (splitDot p) (splitDot_ne_nil p)

/-- C2: on a dot-path with at least two segments whose intermediate prefix
`pre` currently resolves to a non-Object value `w`, `set_nested_value`
replaces that value with an Object (the prefix of the written tree resolves
to an Object), and the write succeeds: reading the full path back yields
the written value. -/
theorem set_nested_value_coerces_intermediate (v x w : Value) (p : String)
    (pre suf : List String) (hsplit : splitDot p = pre ++ suf)
    (hpre : pre ≠ []) (hsuf : suf ≠ [])
    (hold : getNestedParts v pre = some w) (hw : w.is_object = false) :
    (∃ es, getNestedParts (set_nested_value v p x) pre
        = some (Value.obj es)) ∧
    get_nested_value (set_nested_value v p x) p = some x := by
  constructor
  · unfold set_nested_value
    rw [hsplit]
    exact getNestedParts_setNestedParts_prefix v x pre suf hpre hsuf
  · unfold get_nested_value set_nested_value
    exact getNestedParts_setNestedParts v x (splitDot p) (splitDot_ne_nil p)

/-- C3: `get_nested_value` returns `none` whenever some segment fails: if
the prefix `pre` of the path resolves to a node `u` that is not an Object
(in particular an Array, which is never indexed by a dot-path segment) or
that is an Object without the next segment key `s`, the whole lookup is
`none`; there is no partial or approximate match. -/
theorem get_nested_value_none_of_mismatch (v u : Value) (p : String)
    (pre rest : List String) (s : String)
    (hsplit : splitDot p = pre ++ s :: rest)
    (hres : getNestedParts v pre = some u)
    (hfail : u.is_object = false ∨ u.getKey s = none) :
    get_nested_value v p = none := by
  have hk : u.getKey s = none := by
    cases hfail with
    | inl h =>
      cases u with
      | obj es => simp [Value.is_object] at h
      | null => rfl
      | bool b => rfl
      | num n => rfl
      | str t => rfl
      | arr l => rfl
    | inr h => exact h
  unfold get_nested_value
  rw [hsplit, getNestedParts_append, hres]
  simp [getNestedParts, hk]

/-- C4: the source intends the empty path to be a no-op (the
`parts.is_empty()` guard), but `"".split('.')` yields `[""]`, never the
empty list, so the guard is dead: `set_nested_value` on the empty path
inserts the value under the empty-string key instead of leaving the tree
unchanged.  Evaluating the embedded code at the failing input: -/
theorem set_nested_value_empty_path_not_noop :
    set_nested_value (Value.obj []) "" (Value.bool true)
        = Value.obj [("", Value.bool true)] ∧
    set_nested_value (Value.obj []) "" (Value.bool true) ≠ Value.obj [] := by
  refine ⟨rfl, ?_⟩
  simp [set_nested_value, setNestedParts, splitDot, splitDotChars,
    Value.entriesOf, insertKV]

/-- C5: converting Value Null to TOML yields the empty TOML string, so a
JSON null round-tripped through TOML comes back as the empty String, not
Null (the documented lossy degradation). -/
theorem json_to_toml_null_degrades :
    json_to_toml Value.null = TomlValue.str "" ∧
    toml_to_json (json_to_toml Value.null) = Value.str "" :=
  ⟨rfl, rfl⟩

/-- C10: `set_nested_value` only modifies entries along the given path:
with `s` the first segment of `p`, every key `k ≠ s` is mapped to the same
value after the write as before (for every root, so in particular at each
Object node traversed along the path), and the child at `s` is exactly the
recursive write into the old child (or into a fresh empty Object when the
child was absent), so sibling preservation holds recursively. -/
theorem set_nested_value_frame (v x : Value) (p : String) (s : String)
    (rest : List String) (hsplit : splitDot p = s :: rest)
    (k : String) (hk : k ≠ s) :
    (set_nested_value v p x).getKey k = v.getKey k ∧
    (∀ r t, rest = r :: t →
      (set_nested_value v p x).getKey s
        = some (setNestedParts ((v.getKey s).getD (Value.obj [])) rest x)) := by
  unfold set_nested_value
  rw [hsplit]
  constructor
  · exact getKey_setNestedParts_ne v x s rest k hk
  · intro r t hr
    subst hr
    exact getKey_setNestedParts_descend v x s r t

/-- C6: a malformed document is a parse error on the read command, naming
the format, while the write command silently replaces the same malformed
document with an empty Object (its loaded base document is `obj []`) and
behaves exactly as a write to a non-existent file. -/
theorem parse_error_read_errors_write_proceeds (c e1 e2 : String)
    (pT : String → Except String TomlValue)
    (pJ : String → Except String Value)
    (sT : TomlValue → Except String String)
    (sJ : Value → Except String String)
    (mk : String) (pk rk : Option String)
    (m : Option String) (pe : Option Bool) (re : Option String)
    (hJ : pJ c = .error e1) (hT : pT c = .error e2) :
    get_agent_settings (some c) false pT pJ mk pk rk
        = .error ("Failed to parse JSON: " ++ e1) ∧
    get_agent_settings (some c) true pT pJ mk pk rk
        = .error ("Failed to parse TOML: " ++ e2) ∧
    loadWriteBase (some c) false pT pJ = Value.obj [] ∧
    loadWriteBase (some c) true pT pJ = Value.obj [] ∧
    set_agent_settings (some c) false pT pJ sT sJ mk pk rk m pe re
        = set_agent_settings none false pT pJ sT sJ mk pk rk m pe re ∧
    set_agent_settings (some c) true pT pJ sT sJ mk pk rk m pe re
        = set_agent_settings none true pT pJ sT sJ mk pk rk m pe re := by
  refine ⟨?_, ?_, ?_, ?_, ?_, ?_⟩ <;>
    simp [get_agent_settings, set_agent_settings, loadWriteBase, hJ, hT,
      Except.toOption, toml_to_json, toml_to_json_table]

/-- C7: when the settings file does not exist (and the home directory
resolved), the read command returns `Ok` with all three fields absent, for
every format flag, parser and key choice — success, not an error. -/
theorem get_agent_settings_missing_file (isToml : Bool)
    (pT : String → Except String TomlValue)
    (pJ : String → Except String Value)
    (mk : String) (pk rk : Option String) :
    get_agent_settings none isToml pT pJ mk pk rk
      = .ok ⟨none, none, none⟩ := rfl

/-- C8: when the file parses to the document `j`, the read command
succeeds and each field is exactly the governing path's resolution through
the expected primitive accessor: present only if the path was supplied and
resolves to the expected primitive type; a missing node, a node of another
type, or an unsupplied path makes the field absent, with no error. -/
theorem get_agent_settings_fields (c : String)
    (pT : String → Except String TomlValue)
    (pJ : String → Except String Value) (j : Value)
    (mk : String) (pk rk : Option String)
    (hJ : pJ c = .ok j) :
    ∃ r, get_agent_settings (some c) false pT pJ mk pk rk = .ok r ∧
      r.model = (get_nested_value j mk).bind Value.as_str ∧
      r.preview_enabled
        = pk.bind (fun k => (get_nested_value j k).bind Value.as_bool) ∧
      r.reasoning_effort
        = rk.bind (fun k => (get_nested_value j k).bind Value.as_str) ∧
      (∀ w, get_nested_value j mk = some w → w.as_str = none →
        r.model = none) ∧
      (get_nested_value j mk = none → r.model = none) ∧
      (pk = none → r.preview_enabled = none) ∧
      (rk = none → r.reasoning_effort = none) := by
  have h0 : get_agent_settings (some c) false pT pJ mk pk rk
      = .ok ⟨(get_nested_value j mk).bind Value.as_str,
          pk.bind (fun k => (get_nested_value j k).bind Value.as_bool),
          rk.bind (fun k => (get_nested_value j k).bind Value.as_str)⟩ := by
    simp [get_agent_settings, hJ]
  refine ⟨_, h0, rfl, rfl, rfl, ?_, ?_, ?_, ?_⟩
  · intro w hm hw
    simp [hm, hw]
  · intro hm
    simp [hm]
  · intro hpk
    simp [hpk]
  · intro hrk
    simp [hrk]

/-- C9: the write command either applies every supplied (path, value) pair
to the loaded document and hands the serialized result to the file write
(`.ok`), or fails at serialization with an error before anything is
written (`.error`, carrying no contents); there is no partial success. -/
theorem set_agent_settings_atomic (fc : Option String) (isToml : Bool)
    (pT : String → Except String TomlValue)
    (pJ : String → Except String Value)
    (sT : TomlValue → Except String String)
    (sJ : Value → Except String String)
    (mk : String) (pk rk : Option String)
    (m : Option String) (pe : Option Bool) (re : Option String) :
    (∃ s, set_agent_settings fc isToml pT pJ sT sJ mk pk rk m pe re
        = .ok s ∧
      (if isToml then
        sT (json_to_toml
          (applyUpdates (loadWriteBase fc isToml pT pJ) mk pk rk m pe re))
       else
        sJ (applyUpdates (loadWriteBase fc isToml pT pJ) mk pk rk m pe re))
        = .ok s) ∨
    (∃ e, (if isToml then
        sT (json_to_toml
          (applyUpdates (loadWriteBase fc isToml pT pJ) mk pk rk m pe re))
       else
        sJ (applyUpdates (loadWriteBase fc isToml pT pJ) mk pk rk m pe re))
        = .error e ∧
      set_agent_settings fc isToml pT pJ sT sJ mk pk rk m pe re
        = .error ((if isToml then "Failed to serialize TOML: "
            else "Failed to serialize JSON: ") ++ e)) := by
  cases isToml with
  | false =>
    cases h : sJ (applyUpdates (loadWriteBase fc false pT pJ) mk pk rk m pe re) with
    | ok s =>
      left
      exact ⟨s, by simp [set_agent_settings, h], by simp [h]⟩
    | error e =>
      right
      exact ⟨e, by simp [h], by simp [set_agent_settings, h]⟩
  | true =>
    cases h : sT (json_to_toml
        (applyUpdates (loadWriteBase fc true pT pJ) mk pk rk m pe re)) with
    | ok s =>
      left
      exact ⟨s, by simp [set_agent_settings, h], by simp [h]⟩
    | error e =>
      right
      exact ⟨e, by simp [h], by simp [set_agent_settings, h]⟩

/-! ### Witnesses -/

/-- Witness for C2 at the tree `{"a": "x"}` and path `"a.b"`: the old
string at `"a"` is replaced by an Object and the write reads back. -/
theorem set_nested_value_coerces_intermediate_witness :
    (∃ es, getNestedParts
        (set_nested_value (Value.obj [("a", Value.str "x")]) "a.b"
          (Value.num 7)) ["a"] = some (Value.obj es)) ∧
    get_nested_value
        (set_nested_value (Value.obj [("a", Value.str "x")]) "a.b"
          (Value.num 7)) "a.b" = some (Value.num 7) :=
  set_nested_value_coerces_intermediate (Value.obj [("a", Value.str "x")])
    (Value.num 7) (Value.str "x") "a.b" ["a"] ["b"] rfl (by decide)
    (by decide) rfl rfl

/-- Witness for C3 at the tree `{"a": [1]}` and path `"a.0"`: the Array
node at the prefix is never indexed, so the lookup is `none`. -/
theorem get_nested_value_none_of_mismatch_witness :
    get_nested_value (Value.obj [("a", Value.arr [Value.num 1])]) "a.0"
      = none :=
  get_nested_value_none_of_mismatch
    (Value.obj [("a", Value.arr [Value.num 1])]) (Value.arr [Value.num 1])
    "a.0" ["a"] [] "0" rfl rfl (Or.inl rfl)

/-- Witness for C6 with parsers that fail on the contents `"oops"`: the
read command errors naming the format, the write command starts from the
empty Object and behaves as a write to a missing file. -/
theorem parse_error_read_errors_write_proceeds_witness :
    get_agent_settings (some "oops") false
        (fun _ => Except.error "t") (fun _ => Except.error "j") "m" none none
      = .error ("Failed to parse JSON: " ++ "j") ∧
    get_agent_settings (some "oops") true
        (fun _ => Except.error "t") (fun _ => Except.error "j") "m" none none
      = .error ("Failed to parse TOML: " ++ "t") ∧
    loadWriteBase (some "oops") false
        (fun _ => Except.error "t") (fun _ => Except.error "j")
      = Value.obj [] ∧
    loadWriteBase (some "oops") true
        (fun _ => Except.error "t") (fun _ => Except.error "j")
      = Value.obj [] ∧
    set_agent_settings (some "oops") false
        (fun _ => Except.error "t") (fun _ => Except.error "j")
        (fun _ => Except.ok "T") (fun _ => Except.ok "J")
        "m" none none none none none
      = set_agent_settings none false
        (fun _ => Except.error "t") (fun _ => Except.error "j")
        (fun _ => Except.ok "T") (fun _ => Except.ok "J")
        "m" none none none none none ∧
    set_agent_settings (some "oops") true
        (fun _ => Except.error "t") (fun _ => Except.error "j")
        (fun _ => Except.ok "T") (fun _ => Except.ok "J")
        "m" none none none none none
      = set_agent_settings none true
        (fun _ => Except.error "t") (fun _ => Except.error "j")
        (fun _ => Except.ok "T") (fun _ => Except.ok "J")
        "m" none none none none none :=
  parse_error_read_errors_write_proceeds "oops" "j" "t"
    (fun _ => Except.error "t") (fun _ => Except.error "j")
    (fun _ => Except.ok "T") (fun _ => Except.ok "J")
    "m" none none none none none rfl rfl

/-- Witness for C8 on the parsed document `{"model": "gpt", "flag": 3}`:
the model field resolves to the string, the preview path `"flag"` hits a
Number and is absent, the unsupplied reasoning path is absent. -/
theorem get_agent_settings_fields_witness :
    ∃ r, get_agent_settings (some "doc") false
        (fun _ => Except.ok (TomlValue.table []))
        (fun _ => Except.ok
          (Value.obj [("model", Value.str "gpt"), ("flag", Value.num 3)]))
        "model" (some "flag") none = .ok r ∧
      r.model = (get_nested_value
          (Value.obj [("model", Value.str "gpt"), ("flag", Value.num 3)])
          "model").bind Value.as_str ∧
      r.preview_enabled = (some "flag").bind (fun k =>
        (get_nested_value
          (Value.obj [("model", Value.str "gpt"), ("flag", Value.num 3)])
          k).bind Value.as_bool) ∧
      r.reasoning_effort = (none : Option String).bind (fun k =>
        (get_nested_value
          (Value.obj [("model", Value.str "gpt"), ("flag", Value.num 3)])
          k).bind Value.as_str) ∧
      (∀ w, get_nested_value
          (Value.obj [("model", Value.str "gpt"), ("flag", Value.num 3)])
          "model" = some w → w.as_str = none → r.model = none) ∧
      (get_nested_value
          (Value.obj [("model", Value.str "gpt"), ("flag", Value.num 3)])
          "model" = none → r.model = none) ∧
      ((some "flag" : Option String) = none → r.preview_enabled = none) ∧
      ((none : Option String) = none → r.reasoning_effort = none) :=
  get_agent_settings_fields "doc" (fun _ => Except.ok (TomlValue.table []))
    (fun _ => Except.ok
      (Value.obj [("model", Value.str "gpt"), ("flag", Value.num 3)]))
    (Value.obj [("model", Value.str "gpt"), ("flag", Value.num 3)])
    "model" (some "flag") none rfl

/-- Witness for C10 at the tree `{"c": "keep", "a": 1}` and path `"a.b"`:
the sibling `"c"` is untouched and the child at `"a"` is the recursive
write into the old child. -/
theorem set_nested_value_frame_witness :
    (set_nested_value (Value.obj [("c", Value.str "keep"), ("a", Value.num 1)])
        "a.b" (Value.bool true)).getKey "c"
      = (Value.obj [("c", Value.str "keep"), ("a", Value.num 1)]).getKey "c" ∧
    (∀ r t, (["b"] : List String) = r :: t →
      (set_nested_value
          (Value.obj [("c", Value.str "keep"), ("a", Value.num 1)])
          "a.b" (Value.bool true)).getKey "a"
        = some (setNestedParts
            (((Value.obj [("c", Value.str "keep"), ("a", Value.num 1)]).getKey
                "a").getD (Value.obj []))
            ["b"] (Value.bool true))) :=
  set_nested_value_frame
    (Value.obj [("c", Value.str "keep"), ("a", Value.num 1)])
    (Value.bool true) "a.b" "a" ["b"] rfl "c" (by decide)

end Athas
